import Mathlib

/-!
Verification of the move-decision engine of a two-agent toroidal trail game.

The development shallowly embeds the two bot variants:
* `agent.py` — the stateful, phased variant (`send_move`, `flood_fill_space`,
  `is_suicidal`, `choose_non_suicidal_move`, `bfs_next_move`,
  `_update_local_game_from_post`, `end_game`);
* `sample_agent.py` — the simple variant (`sample_send_move` and its safe-move
  filter).

Machine integers are embedded as `Int` with explicit `%` (Python's `%` on a
positive modulus agrees with `Int.emod`).  Cells are integer pairs, occupied
sets are `Finset`s, trails are `List`s of cells.  Fallible code (Python code
that can raise) returns `Option`.
-/

/-- A board cell: an integer coordinate pair `(x, y)`. -/
abbrev Cell := Int × Int

/-- Modelled from the spec: the `Direction` enum of the (absent)
`case_closed_game` module — one of four unit vectors, each mapping to a
`(dx, dy)` delta; `DOWN` increases `y` and `RIGHT` increases `x`, matching the
source's use of `Direction.DOWN` to move toward larger `y` and
`Direction.RIGHT` for positive `dx`. -/
inductive Direction where
  | UP
  | DOWN
  | LEFT
  | RIGHT
deriving DecidableEq, Repr

/-- The `(dx, dy)` delta of a direction. -/
def Direction.value : Direction → Int × Int
  | .UP => (0, -1)
  | .DOWN => (0, 1)
  | .LEFT => (-1, 0)
  | .RIGHT => (1, 0)

/-- Iteration order of `for d in Direction`. -/
def Direction.all : List Direction := [.UP, .DOWN, .LEFT, .RIGHT]

/-- The exact inverse of a direction. -/
def Direction.reverse : Direction → Direction
  | .UP => .DOWN
  | .DOWN => .UP
  | .LEFT => .RIGHT
  | .RIGHT => .LEFT

/-- Modelled from the spec: the `EMPTY` cell marker of `case_closed_game`. -/
def EMPTY : Int := 0

/-- Modelled from the spec: the occupied-by-agent cell marker `AGENT` of
`case_closed_game`. -/
def AGENT : Int := 1

/-- Modelled from the spec: the board of `case_closed_game` — toroidal
dimensions and a per-cell classification grid (a row-major 2D array of cell
markers, replaced wholesale by state syncs). -/
structure Board where
  width : Int
  height : Int
  grid : List (List Int)
deriving DecidableEq, Repr

/-- Modelled from the spec: `board.get_cell_state` — wraps the coordinate on
both axes and reads the classification grid; `none` models the lookup raising
(grid malformed for that cell), which `is_suicidal` catches. -/
def Board.get_cell_state (b : Board) (c : Cell) : Option Int :=
  match b.grid.get? (c.2 % b.height).toNat with
  | none => none
  | some row => row.get? (c.1 % b.width).toNat

/-- Modelled from the spec: an agent of `case_closed_game` — ordered trail
(head = last element, origin = first), current heading, alive flag, length and
remaining boosts. -/
structure Agent where
  trail : List Cell
  direction : Direction
  length : Int
  alive : Bool
  boosts_remaining : Int
deriving DecidableEq, Repr

/-- Modelled from the spec: the game snapshot of `case_closed_game` — the
board and exactly two agents, plus the global turn counter. -/
structure Game where
  board : Board
  agent1 : Agent
  agent2 : Agent
  turns : Int
deriving DecidableEq, Repr

/-- The strategic phase recorded in `send_move.phase` (the Python strings
`"floodfill"`, `"panic"`, `"post_corridor_fill"`). -/
inductive Phase where
  | floodfill
  | panic
  | post_corridor_fill
deriving DecidableEq, Repr

/-- The wrapped 4-neighborhood of a cell, in `Direction` iteration order
(`(x + dx) % w, (y + dy) % h`). -/
def nbrs (w h : Int) (c : Cell) : List Cell :=
  Direction.all.map (fun d => ((c.1 + d.value.1) % w, (c.2 + d.value.2) % h))

/-- The body of `flood_fill_space`'s `while queue:` loop, with explicit fuel
(one unit per loop iteration).  Pops the front of the queue; skips cells that
are already visited or occupied; otherwise marks the cell visited and appends
its not-yet-visited, unoccupied wrapped neighbors. -/
def floodLoop (w h : Int) (occupied : Finset Cell) :
    Nat → Finset Cell → List Cell → Finset Cell
  | 0, visited, _ => visited
  | _ + 1, visited, [] => visited
  | fuel + 1, visited, c :: queue =>
    if c ∈ visited ∨ c ∈ occupied then
      floodLoop w h occupied fuel visited queue
    else
      let visited' := insert c visited
      let newCells := (nbrs w h c).filter (fun n => n ∉ visited' ∧ n ∉ occupied)
      floodLoop w h occupied fuel visited' (queue ++ newCells)

/-- Fuel that provably suffices for `floodLoop` to drain its queue on a board
with positive dimensions. -/
def floodFuel (b : Board) : Nat :=
  5 * (b.width.toNat * b.height.toNat + 1) + 1

/-- Embedding of `flood_fill_space(pos, board, occupied)` of both `agent.py` and
`sample_agent.py`: BFS from `pos` over the wrapped 4-neighborhood, never
entering occupied or already-visited cells, returning the number of visited
cells. -/
def flood_fill_space (pos : Cell) (board : Board) (occupied : Finset Cell) : Nat :=
  (floodLoop board.width board.height occupied (floodFuel board) ∅ [pos]).card

/-- Embedding of `is_suicidal(head, target, board, occupied_trails)` of `agent.py`: the
board's cell classification is the primary source (falling back to trail
membership when the lookup raises), and membership in the explicit trail set
additionally forces `true`. -/
def is_suicidal (head target : Cell) (board : Board) (occupied_trails : Finset Cell) :
    Bool :=
  let cell_state : Int :=
    match board.get_cell_state target with
    | some s => s
    | none => if target ∈ occupied_trails then AGENT else EMPTY
  if cell_state ≠ EMPTY then true
  else if target ∈ occupied_trails then true
  else false

/-- The comparator of `candidate_moves.sort(reverse=True, key=...)`:
candidate `a` may precede `b` when its space score is at least `b`'s. -/
def scoreGE (a b : Nat × Direction × Cell) : Bool := b.1 ≤ a.1

/-- Embedding of `choose_non_suicidal_move` of `agent.py`: sort candidates by space
descending (stably, as Python's `sort(reverse=True)` does), return the first
non-suicidal candidate's direction, else the largest-space candidate's
direction; `none` only on an empty candidate list. -/
def choose_non_suicidal_move (head : Cell) (board : Board)
    (occupied_trails : Finset Cell)
    (candidate_moves : List (Nat × Direction × Cell)) : Option Direction :=
  match candidate_moves with
  | [] => none
  | _ :: _ =>
    let sorted := candidate_moves.mergeSort scoreGE
    match sorted.find? (fun c => ! is_suicidal head c.2.2 board occupied_trails) with
    | some c => some c.2.1
    | none =>
      match sorted with
      | c :: _ => some c.2.1
      | [] => none

/-- Embedding of `bfs_next_move(head, occupied, board, preferred_dx)` of `agent.py`:
first try the horizontal step in the preferred direction (note the source
does not wrap `y` here), then `UP`/`DOWN`, then any of the four directions;
`none` when every try is suicidal. -/
def bfs_next_move (head : Cell) (occupied : Finset Cell) (board : Board)
    (preferred_dx : Int) : Option Direction :=
  let w := board.width
  let h := board.height
  let t1 : Cell := ((head.1 + preferred_dx) % w, head.2)
  if ¬ is_suicidal head t1 board occupied then
    some (if preferred_dx > 0 then Direction.RIGHT else Direction.LEFT)
  else
    match [Direction.UP, Direction.DOWN].find?
        (fun d => ¬ is_suicidal head
          ((head.1 + d.value.1) % w, (head.2 + d.value.2) % h) board occupied) with
    | some d => some d
    | none =>
      [Direction.LEFT, Direction.RIGHT, Direction.UP, Direction.DOWN].find?
        (fun d => ¬ is_suicidal head
          ((head.1 + d.value.1) % w, (head.2 + d.value.2) % h) board occupied)

/-- A state-sync payload: any subset of the keys handled by
`_update_local_game_from_post`; `none` models an absent key. -/
structure SyncData where
  board : Option (List (List Int))
  agent1_trail : Option (List Cell)
  agent2_trail : Option (List Cell)
  agent1_length : Option Int
  agent2_length : Option Int
  agent1_alive : Option Bool
  agent2_alive : Option Bool
  agent1_boosts : Option Int
  agent2_boosts : Option Int
  turn_count : Option Int
deriving DecidableEq, Repr

/-- The all-absent payload. -/
def SyncData.empty : SyncData :=
  ⟨none, none, none, none, none, none, none, none, none, none⟩

/-- Embedding of `_update_local_game_from_post` of both variants: each present key
overwrites the corresponding internal field; absent keys leave the prior
value untouched. -/
def update_local_game (g : Game) (d : SyncData) : Game :=
  { board := { g.board with grid := d.board.getD g.board.grid }
    agent1 := { g.agent1 with
      trail := d.agent1_trail.getD g.agent1.trail
      length := d.agent1_length.getD g.agent1.length
      alive := d.agent1_alive.getD g.agent1.alive
      boosts_remaining := d.agent1_boosts.getD g.agent1.boosts_remaining }
    agent2 := { g.agent2 with
      trail := d.agent2_trail.getD g.agent2.trail
      length := d.agent2_length.getD g.agent2.length
      alive := d.agent2_alive.getD g.agent2.alive
      boosts_remaining := d.agent2_boosts.getD g.agent2.boosts_remaining }
    turns := d.turn_count.getD g.turns }

/-- The panic trigger of `send_move` (`agent.py` lines 178–183): while in
`floodfill`, enter `panic` when the plain absolute difference of head columns
is at most the threshold 1 (with a dead opponent the separation is infinite
and the trigger never fires). -/
def panic_phase_update (phase : Phase) (head : Cell) (oppHead? : Option Cell) :
    Phase :=
  match oppHead? with
  | some o => if phase = Phase.floodfill ∧ |head.1 - o.1| ≤ 1 then Phase.panic else phase
  | none => phase

/-- The corridor-infiltration test of `send_move` (`agent.py` lines 189–192):
the agent is off the corridor row, the opponent is on it, and the opponent's
column lies beyond the head's column toward — and possibly equal to — the
exit column. -/
def corridor_infiltrated (head o : Cell) (corridor_y exit_x : Int) : Bool :=
  decide (head.2 ≠ corridor_y) && decide (o.2 = corridor_y) &&
    (decide (head.1 < exit_x ∧ head.1 < o.1 ∧ o.1 ≤ exit_x) ||
     decide (head.1 > exit_x ∧ exit_x ≤ o.1 ∧ o.1 < head.1))

/-- The phase after the panic trigger and the corridor-infiltration check of
`send_move` (the value the decision branches dispatch on). -/
def phase2_of (phase : Phase) (head : Cell) (oppHead? : Option Cell)
    (corridor_y exit_x : Int) : Phase :=
  if (match oppHead? with
      | some o => decide (panic_phase_update phase head oppHead? = Phase.panic) &&
          corridor_infiltrated head o corridor_y exit_x
      | none => false) = true
  then Phase.post_corridor_fill
  else panic_phase_update phase head oppHead?

/-- The phase stored back by `send_move`: `phase2_of`, further advanced to
`post_corridor_fill` when the panic escape has arrived at the corridor exit
(aligned with both the corridor row and the exit column). -/
def phase_step (phase : Phase) (head : Cell) (oppHead? : Option Cell)
    (corridor_y exit_x : Int) : Phase :=
  if phase2_of phase head oppHead? corridor_y exit_x = Phase.panic ∧
      head.2 = corridor_y ∧ head.1 = exit_x then
    Phase.post_corridor_fill
  else phase2_of phase head oppHead? corridor_y exit_x

/-- The escape bias stored back by `send_move`: set to the sign of the
horizontal step during the panic escape's horizontal leg, otherwise kept. -/
def dx_step (phase : Phase) (escape_dx : Int) (head : Cell)
    (oppHead? : Option Cell) (corridor_y exit_x : Int) : Int :=
  if phase2_of phase head oppHead? corridor_y exit_x = Phase.panic ∧
      head.2 = corridor_y ∧ head.1 ≠ exit_x then
    if head.1 < exit_x then 1 else -1
  else escape_dx

/-- The sneaky corridor of `send_move`: every cell of the corridor row. -/
def sneaky_corridor (w corridor_y : Int) : Finset Cell :=
  (Finset.Ico 0 w).image (fun x => (x % w, corridor_y))

/-- The four directions minus the exact reverse of the current heading
(`agent.py` lines 154–156, `sample_agent.py` lines 77–79). -/
def candidate_dirs (cur : Direction) : List Direction :=
  Direction.all.filter (fun d => d.value ≠ (-cur.value.1, -cur.value.2))

/-- The candidate-move list of `send_move` (`agent.py` lines 158–168): for
each non-reversing direction, the wrapped target cell, skipped when it equals
the current head, paired with its flood-fill space score. -/
def gen_move_options (head : Cell) (board : Board) (cur : Direction)
    (occupied : Finset Cell) : List (Nat × Direction × Cell) :=
  (candidate_dirs cur).filterMap (fun d =>
    let t : Cell := ((head.1 + d.value.1) % board.width,
                     (head.2 + d.value.2) % board.height)
    if t = head then none
    else some (flood_fill_space t board occupied, d, t))

/-- The engine's process-wide mutable state: the synced game snapshot plus
the persistent `send_move.phase` / `send_move.escape_dx` attributes. -/
structure EngineState where
  game : Game
  phase : Phase
  escape_dx : Int
deriving DecidableEq, Repr

/-- Embedding of `send_move` of `agent.py`: the full move-query handler.  Returns the
chosen direction (`none` models an uncaught exception: indexing an empty
trail) together with the phase and escape bias stored back into the
process-wide state. -/
def send_move (st : EngineState) (player : Int) :
    Option Direction × Phase × Int :=
  let g := st.game
  let my := if player = 1 then g.agent1 else g.agent2
  let opp := if player = 1 then g.agent2 else g.agent1
  match my.trail with
  | [] => (none, st.phase, st.escape_dx)
  | t0 :: rest =>
    let head := (t0 :: rest).getLast (List.cons_ne_nil t0 rest)
    match (if opp.alive then (opp.trail.getLast?).map some else some none) with
    | none => (none, st.phase, st.escape_dx)
    | some oppHead? =>
      let w := g.board.width
      let h := g.board.height
      let corridor_y := (t0.2 + h / 2) % h
      let exit_x := t0.1
      let occupied_trails : Finset Cell := my.trail.toFinset ∪ opp.trail.toFinset
      let move_options := gen_move_options head g.board my.direction
        (occupied_trails ∪ sneaky_corridor w corridor_y)
      match move_options with
      | [] => (some my.direction, st.phase, st.escape_dx)
      | m0 :: _ =>
        let phase2 := phase2_of st.phase head oppHead? corridor_y exit_x
        let chosen? : Option Direction :=
          match phase2 with
          | Phase.floodfill =>
            choose_non_suicidal_move head g.board occupied_trails move_options
          | Phase.panic =>
            if head.2 ≠ corridor_y then
              let tentative := if head.2 < corridor_y then Direction.DOWN else Direction.UP
              let t : Cell := ((head.1 + tentative.value.1) % w,
                               (head.2 + tentative.value.2) % h)
              if ¬ is_suicidal head t g.board occupied_trails then some tentative
              else choose_non_suicidal_move head g.board occupied_trails move_options
            else if head.1 ≠ exit_x then
              let tentative := if head.1 < exit_x then Direction.RIGHT else Direction.LEFT
              let t : Cell := ((head.1 + tentative.value.1) % w,
                               (head.2 + tentative.value.2) % h)
              if ¬ is_suicidal head t g.board occupied_trails then some tentative
              else choose_non_suicidal_move head g.board occupied_trails move_options
            else
              choose_non_suicidal_move head g.board occupied_trails move_options
          | Phase.post_corridor_fill =>
            match bfs_next_move head occupied_trails g.board
                (if st.escape_dx = 0 then 1 else st.escape_dx) with
            | some nm =>
              let t : Cell := ((head.1 + nm.value.1) % w,
                               (head.2 + nm.value.2) % h)
              if ¬ is_suicidal head t g.board occupied_trails then some nm
              else choose_non_suicidal_move head g.board occupied_trails move_options
            | none => choose_non_suicidal_move head g.board occupied_trails move_options
        (some (chosen?.getD m0.2.1),
         phase_step st.phase head oppHead? corridor_y exit_x,
         dx_step st.phase st.escape_dx head oppHead? corridor_y exit_x)

/-- The wrapped cells adjacent to the opponent's head — its possible next
positions (`sample_agent.py` lines 88–90). -/
def opp_next (w h : Int) (oh : Cell) : List Cell :=
  Direction.all.map (fun d => ((oh.1 + d.value.1) % w, (oh.2 + d.value.2) % h))

/-- The safe-move filter of `sample_agent.py`'s `send_move` (lines 81–93):
non-reversing directions whose wrapped target is on neither trail and, when
the opponent is alive, is none of the opponent's possible next positions. -/
def sample_safe_moves (head : Cell) (w h : Int) (cur : Direction)
    (myTrail oppTrail : List Cell) (oppHead? : Option Cell) : List Direction :=
  (candidate_dirs cur).filter (fun d =>
    let t : Cell := ((head.1 + d.value.1) % w, (head.2 + d.value.2) % h)
    if t ∈ myTrail ∨ t ∈ oppTrail then false
    else
      match oppHead? with
      | some oh => decide (t ∉ opp_next w h oh)
      | none => true)

/-- Embedding of `send_move` of `sample_agent.py`: chosen direction plus boost flag.
`none` models an uncaught exception: indexing an empty trail, or — when the
safe-move list is empty and boosts remain — the `NameError` from reading the
unbound `max_space` in the boost condition (the conjunction short-circuits
when no boosts remain). -/
def sample_send_move (g : Game) (player : Int) : Option (Direction × Bool) :=
  let my := if player = 1 then g.agent1 else g.agent2
  let opp := if player = 1 then g.agent2 else g.agent1
  match my.trail.getLast? with
  | none => none
  | some head =>
    match (if opp.alive then (opp.trail.getLast?).map some else some none) with
    | none => none
    | some oppHead? =>
      let w := g.board.width
      let h := g.board.height
      let safe := sample_safe_moves head w h my.direction my.trail opp.trail oppHead?
      match safe with
      | [] =>
        if my.boosts_remaining > 0 then none
        else some (my.direction, false)
      | d0 :: _ =>
        let occupied : Finset Cell := my.trail.toFinset ∪ opp.trail.toFinset
        let best := safe.foldl
          (fun (acc : Int × Direction) d =>
            let t : Cell := ((head.1 + d.value.1) % w, (head.2 + d.value.2) % h)
            let space : Int := (flood_fill_space t g.board occupied : Int)
            if space > acc.1 then (space, d) else acc)
          (-1, d0)
        some (best.2, decide (my.boosts_remaining > 0) && decide (best.1 > 10))

/-- An external request touching the engine: a state sync, a move query, or
a match-end reset (optionally carrying a final sync). -/
inductive Event where
  | sync (d : SyncData)
  | moveQuery (player : Int)
  | endGame (d : Option SyncData)
deriving DecidableEq, Repr

/-- One request against the engine state: `receive_state` applies the sync;
`send_move` stores back its phase and escape bias; `end_game` optionally
applies a final sync and then unconditionally resets phase and bias. -/
def stepEvent (st : EngineState) (e : Event) : EngineState :=
  match e with
  | .sync d => { st with game := update_local_game st.game d }
  | .moveQuery p =>
    let r := send_move st p
    { st with phase := r.2.1, escape_dx := r.2.2 }
  | .endGame d? =>
    let g := match d? with
      | some d => update_local_game st.game d
      | none => st.game
    { game := g, phase := Phase.floodfill, escape_dx := 0 }

/-- Run a sequence of requests. -/
def runEvents (st : EngineState) (es : List Event) : EngineState :=
  es.foldl stepEvent st

/-- Whether a request sequence contains a match-end reset. -/
def hasReset : List Event → Bool
  | [] => false
  | Event.endGame _ :: _ => true
  | _ :: es => hasReset es

/-- Position of a phase along the one-directional transition chain. -/
def phaseRank : Phase → Nat
  | .floodfill => 0
  | .panic => 1
  | .post_corridor_fill => 2

/-- Heads in columns 0 and 9 of a 10-wide toroidal board: the columns are
toroidally adjacent (wrap distance 1) but the plain column difference is 9. -/
def toroidalSepState : EngineState :=
  EngineState.mk
    (Game.mk (Board.mk 10 10 (List.replicate 10 (List.replicate 10 0)))
      (Agent.mk [(0, 5)] Direction.RIGHT 1 true 0)
      (Agent.mk [(9, 5)] Direction.LEFT 1 true 0) 0)
    Phase.floodfill 0

/-- A `Panic`-phase state whose opponent sits on the safe row exactly at the
exit column (agent origin `(3,0)` on a 6×4 board, so the safe row is `y = 2`
and the exit column is `x = 3`; the opponent head is `(3, 2)`). -/
def exitColumnState : EngineState :=
  EngineState.mk
    (Game.mk (Board.mk 6 4 (List.replicate 4 (List.replicate 6 0)))
      (Agent.mk [(3, 0), (2, 0)] Direction.LEFT 2 true 0)
      (Agent.mk [(3, 2)] Direction.DOWN 1 true 0) 0)
    Phase.panic 0

/-- A game boxing the simple agent in: every non-reversing neighbor of the
head `(1,1)` lies on its own trail, so the safe-move list is empty; the
opponent is dead. -/
def boxedGame (boosts : Int) : Game :=
  Game.mk (Board.mk 3 3 (List.replicate 3 (List.replicate 3 0)))
    (Agent.mk [(1, 0), (1, 2), (2, 1), (1, 1)] Direction.RIGHT 4 true boosts)
    (Agent.mk [] Direction.LEFT 0 false 0) 0

/-- Reachability from `start` avoiding `occupied`, over the wrapped
4-neighborhood: the set of cells the flood fill visits. -/
inductive Reaches (w h : Int) (occupied : Finset Cell) (start : Cell) : Cell → Prop
  | base : start ∉ occupied → Reaches w h occupied start start
  | step {c n : Cell} : Reaches w h occupied start c → n ∈ nbrs w h c →
      n ∉ occupied → Reaches w h occupied start n

/-- Enlarging the occupied set shrinks reachability. -/
lemma Reaches.mono {w h : Int} {O1 O2 : Finset Cell} {start c : Cell}
    (hr : Reaches w h O2 start c) (hsub : O1 ⊆ O2) : Reaches w h O1 start c := by
  induction hr with
  | base hs => exact .base (fun hc => hs (hsub hc))
  | step hr hn hno ih => exact .step ih hn (fun hc => hno (hsub hc))

/-- Every cell the flood fill can ever hold: the start cell plus the wrapped
grid. -/
def gridUniv (w h : Int) (start : Cell) : Finset Cell :=
  insert start (Finset.Ico (0 : Int) w ×ˢ Finset.Ico (0 : Int) h)

/-- Wrapped neighbors lie in the grid rectangle. -/
lemma nbrs_mem_grid {w h : Int} (hw : 0 < w) (hh : 0 < h) {c n : Cell}
    (hn : n ∈ nbrs w h c) :
    n ∈ Finset.Ico (0 : Int) w ×ˢ Finset.Ico (0 : Int) h := by
  simp only [nbrs, List.mem_map] at hn
  obtain ⟨d, -, rfl⟩ := hn
  refine Finset.mem_product.mpr ⟨Finset.mem_Ico.mpr ⟨?_, ?_⟩, Finset.mem_Ico.mpr ⟨?_, ?_⟩⟩
  · exact Int.emod_nonneg _ (ne_of_gt hw)
  · exact Int.emod_lt_of_pos _ hw
  · exact Int.emod_nonneg _ (ne_of_gt hh)
  · exact Int.emod_lt_of_pos _ hh

/-- A visited set that is closed under safe neighbors and contains the start
(unless occupied) contains every reachable cell. -/
lemma visited_complete {w h : Int} {occupied visited : Finset Cell} {start : Cell}
    (hclosed : ∀ c ∈ visited, ∀ n ∈ nbrs w h c, n ∉ occupied → n ∈ visited)
    (hstart : start ∈ occupied ∨ start ∈ visited) :
    ∀ c, Reaches w h occupied start c → c ∈ visited := by
  intro c hc
  induction hc with
  | base hs => exact hstart.resolve_left hs
  | step hr hn hno ih => exact hclosed _ ih _ hn hno

/-- The flood-fill loop, run with enough fuel from any intermediate state
satisfying its invariants, returns exactly the reachable cells. -/
lemma floodLoop_correct (w h : Int) (hw : 0 < w) (hh : 0 < h)
    (occupied : Finset Cell) (start : Cell) :
    ∀ (fuel : Nat) (visited : Finset Cell) (queue : List Cell),
      (∀ c ∈ visited, Reaches w h occupied start c) →
      (∀ q ∈ queue, q ∈ occupied ∨ Reaches w h occupied start q) →
      (∀ c ∈ visited, ∀ n ∈ nbrs w h c, n ∉ occupied → n ∈ visited ∨ n ∈ queue) →
      (start ∈ occupied ∨ start ∈ visited ∨ start ∈ queue) →
      (visited ⊆ gridUniv w h start) →
      (∀ q ∈ queue, q ∈ gridUniv w h start) →
      5 * ((gridUniv w h start).card - visited.card) + queue.length ≤ fuel →
      (∀ c ∈ floodLoop w h occupied fuel visited queue,
          Reaches w h occupied start c) ∧
      (∀ c, Reaches w h occupied start c →
          c ∈ floodLoop w h occupied fuel visited queue) := by
  intro fuel
  induction fuel with
  | zero =>
    intro visited queue I1 I2 I3 I4 I5 I6 hfuel
    have hq : queue = [] := List.eq_nil_of_length_eq_zero (by omega)
    subst hq
    refine ⟨I1, visited_complete ?_ ?_⟩
    · intro c hc n hn hno
      rcases I3 c hc n hn hno with h' | h'
      · exact h'
      · simp at h'
    · rcases I4 with h' | h' | h'
      · exact Or.inl h'
      · exact Or.inr h'
      · simp at h'
  | succ fuel ih =>
    intro visited queue I1 I2 I3 I4 I5 I6 hfuel
    match queue with
    | [] =>
      refine ⟨I1, visited_complete ?_ ?_⟩
      · intro c hc n hn hno
        rcases I3 c hc n hn hno with h' | h'
        · exact h'
        · simp at h'
      · rcases I4 with h' | h' | h'
        · exact Or.inl h'
        · exact Or.inr h'
        · simp at h'
    | c :: rest =>
      rw [floodLoop]
      by_cases hcv : c ∈ visited ∨ c ∈ occupied
      · rw [if_pos hcv]
        refine ih visited rest I1 (fun q hq => I2 q (List.mem_cons_of_mem _ hq))
          ?_ ?_ I5 (fun q hq => I6 q (List.mem_cons_of_mem _ hq)) ?_
        · intro a ha n hn hno
          rcases I3 a ha n hn hno with h' | h'
          · exact Or.inl h'
          · rcases List.mem_cons.mp h' with rfl | h''
            · rcases hcv with h'' | h''
              · exact Or.inl h''
              · exact absurd h'' hno
            · exact Or.inr h''
        · rcases I4 with h' | h' | h'
          · exact Or.inl h'
          · exact Or.inr (Or.inl h')
          · rcases List.mem_cons.mp h' with rfl | h''
            · rcases hcv with h'' | h''
              · exact Or.inr (Or.inl h'')
              · exact Or.inl h''
            · exact Or.inr (Or.inr h'')
        · simp only [List.length_cons] at hfuel
          omega
      · rw [if_neg hcv]
        push_neg at hcv
        obtain ⟨hc1, hc2⟩ := hcv
        have hreach : Reaches w h occupied start c :=
          (I2 c (List.mem_cons_self _ _)).resolve_left hc2
        have hcU : c ∈ gridUniv w h start := I6 c (List.mem_cons_self _ _)
        refine ih (insert c visited) _ ?_ ?_ ?_ ?_ ?_ ?_ ?_
        · intro x hx
          rcases Finset.mem_insert.mp hx with rfl | hx'
          · exact hreach
          · exact I1 x hx'
        · intro q hq
          rcases List.mem_append.mp hq with hq' | hq'
          · exact I2 q (List.mem_cons_of_mem _ hq')
          · simp only [List.mem_filter, decide_eq_true_eq] at hq'
            exact Or.inr (.step hreach hq'.1 hq'.2.2)
        · intro a ha n hn hno
          rcases Finset.mem_insert.mp ha with rfl | ha'
          · by_cases hnv : n ∈ insert a visited
            · exact Or.inl hnv
            · refine Or.inr (List.mem_append.mpr (Or.inr ?_))
              simp only [List.mem_filter, decide_eq_true_eq]
              exact ⟨hn, hnv, hno⟩
          · rcases I3 a ha' n hn hno with h' | h'
            · exact Or.inl (Finset.mem_insert_of_mem h')
            · rcases List.mem_cons.mp h' with rfl | h''
              · exact Or.inl (Finset.mem_insert_self _ _)
              · exact Or.inr (List.mem_append.mpr (Or.inl h''))
        · rcases I4 with h' | h' | h'
          · exact Or.inl h'
          · exact Or.inr (Or.inl (Finset.mem_insert_of_mem h'))
          · rcases List.mem_cons.mp h' with rfl | h''
            · exact Or.inr (Or.inl (Finset.mem_insert_self _ _))
            · exact Or.inr (Or.inr (List.mem_append.mpr (Or.inl h'')))
        · exact Finset.insert_subset hcU I5
        · intro q hq
          rcases List.mem_append.mp hq with hq' | hq'
          · exact I6 q (List.mem_cons_of_mem _ hq')
          · have hq'' : q ∈ nbrs w h c := List.mem_of_mem_filter hq'
            exact Finset.mem_insert_of_mem (nbrs_mem_grid hw hh hq'')
        · have hins : (insert c visited).card = visited.card + 1 :=
            Finset.card_insert_of_not_mem hc1
          have hlt : visited.card < (gridUniv w h start).card :=
            Finset.card_lt_card ((Finset.ssubset_iff_of_subset I5).mpr ⟨c, hcU, hc1⟩)
          have hnc : ((nbrs w h c).filter
              (fun n => n ∉ insert c visited ∧ n ∉ occupied)).length ≤ 4 := by
            have := List.length_filter_le
              (fun n => decide (n ∉ insert c visited ∧ n ∉ occupied)) (nbrs w h c)
            have hlen : (nbrs w h c).length = 4 := by
              simp [nbrs, Direction.all]
            omega
          simp only [List.length_append, List.length_cons] at hfuel ⊢
          omega

/-- With the fuel `flood_fill_space` actually uses, the flood fill computes
exactly the reachable set. -/
lemma flood_eq_reach (pos : Cell) (board : Board) (occupied : Finset Cell)
    (hw : 0 < board.width) (hh : 0 < board.height) :
    (∀ c ∈ floodLoop board.width board.height occupied (floodFuel board) ∅ [pos],
        Reaches board.width board.height occupied pos c) ∧
    (∀ c, Reaches board.width board.height occupied pos c →
        c ∈ floodLoop board.width board.height occupied (floodFuel board) ∅ [pos]) := by
  have hcard : (gridUniv board.width board.height pos).card ≤
      board.width.toNat * board.height.toNat + 1 := by
    refine le_trans (Finset.card_insert_le _ _) ?_
    rw [Finset.card_product]
    simp [Int.card_Ico]
  refine floodLoop_correct board.width board.height hw hh occupied pos
    (floodFuel board) ∅ [pos] (by simp) ?_ (by simp) ?_ (by simp) ?_ ?_
  · intro q hq
    simp only [List.mem_singleton] at hq
    rw [hq]
    by_cases hp : pos ∈ occupied
    · exact Or.inl hp
    · exact Or.inr (.base hp)
  · exact Or.inr (Or.inr (List.mem_singleton.mpr rfl))
  · intro q hq
    simp only [List.mem_singleton] at hq
    rw [hq]
    exact Finset.mem_insert_self _ _
  · simp only [Finset.card_empty, Nat.sub_zero, List.length_singleton, floodFuel]
    omega

/-- C2: for every head, target, board and explicit occupied set, membership of
the target in the explicit occupied set forces `is_suicidal` to `true`,
regardless of the board's cell classification. -/
theorem is_suicidal_of_mem_occupied (head target : Cell) (board : Board)
    (occupied_trails : Finset Cell) (hmem : target ∈ occupied_trails) :
    is_suicidal head target board occupied_trails = true := by
  unfold is_suicidal
  rcases hcs : board.get_cell_state target with _ | s
  · simp [hcs, hmem, AGENT, EMPTY]
  · by_cases hs : s = EMPTY
    · simp [hcs, hs, hmem]
    · simp [hcs, hs]

/-- Witness for C2 at a concrete input. -/
theorem is_suicidal_of_mem_occupied_witness :
    ((0 : Int), (1 : Int)) ∈ ({((0 : Int), (1 : Int))} : Finset Cell) ∧
      is_suicidal (0, 0) (0, 1) ⟨2, 2, [[0, 0], [0, 0]]⟩
        {((0 : Int), (1 : Int))} = true :=
  ⟨by decide, is_suicidal_of_mem_occupied (0, 0) (0, 1) ⟨2, 2, [[0, 0], [0, 0]]⟩
    {((0 : Int), (1 : Int))} (by decide)⟩

/-- C3: on a board with positive dimensions, enlarging the occupied set never
increases the flood-fill reachable-cell count from the same start. -/
theorem flood_fill_space_mono (pos : Cell) (board : Board) (O1 O2 : Finset Cell)
    (hw : 0 < board.width) (hh : 0 < board.height) (hsub : O1 ⊆ O2) :
    flood_fill_space pos board O2 ≤ flood_fill_space pos board O1 := by
  have h1 := flood_eq_reach pos board O1 hw hh
  have h2 := flood_eq_reach pos board O2 hw hh
  unfold flood_fill_space
  exact Finset.card_le_card (fun c hc => h1.2 c ((h2.1 c hc).mono hsub))

/-- Witness for C3 at a concrete input. -/
theorem flood_fill_space_mono_witness :
    (0 : Int) < (Board.mk 2 2 [[0, 0], [0, 0]]).width ∧
      (0 : Int) < (Board.mk 2 2 [[0, 0], [0, 0]]).height ∧
      (∅ : Finset Cell) ⊆ {((0 : Int), (0 : Int))} ∧
      flood_fill_space (1, 1) (Board.mk 2 2 [[0, 0], [0, 0]])
          {((0 : Int), (0 : Int))} ≤
        flood_fill_space (1, 1) (Board.mk 2 2 [[0, 0], [0, 0]]) ∅ :=
  ⟨by decide, by decide, by decide,
    flood_fill_space_mono (1, 1) (Board.mk 2 2 [[0, 0], [0, 0]]) ∅
      {((0 : Int), (0 : Int))} (by decide) (by decide) (by decide)⟩

/-- C9: a state sync overwrites exactly the fields present in the payload;
every field whose key is absent retains its prior value, and fields never
carried by a sync (headings, board dimensions) are always untouched. -/
theorem sync_preserves_absent_fields (g : Game) (d : SyncData) :
    (d.board = none → (update_local_game g d).board.grid = g.board.grid) ∧
    (d.agent1_trail = none →
      (update_local_game g d).agent1.trail = g.agent1.trail) ∧
    (d.agent2_trail = none →
      (update_local_game g d).agent2.trail = g.agent2.trail) ∧
    (d.agent1_length = none →
      (update_local_game g d).agent1.length = g.agent1.length) ∧
    (d.agent2_length = none →
      (update_local_game g d).agent2.length = g.agent2.length) ∧
    (d.agent1_alive = none →
      (update_local_game g d).agent1.alive = g.agent1.alive) ∧
    (d.agent2_alive = none →
      (update_local_game g d).agent2.alive = g.agent2.alive) ∧
    (d.agent1_boosts = none →
      (update_local_game g d).agent1.boosts_remaining = g.agent1.boosts_remaining) ∧
    (d.agent2_boosts = none →
      (update_local_game g d).agent2.boosts_remaining = g.agent2.boosts_remaining) ∧
    (d.turn_count = none → (update_local_game g d).turns = g.turns) ∧
    (update_local_game g d).board.width = g.board.width ∧
    (update_local_game g d).board.height = g.board.height ∧
    (update_local_game g d).agent1.direction = g.agent1.direction ∧
    (update_local_game g d).agent2.direction = g.agent2.direction := by
  unfold update_local_game
  exact ⟨fun h => by simp [h], fun h => by simp [h], fun h => by simp [h],
    fun h => by simp [h], fun h => by simp [h], fun h => by simp [h],
    fun h => by simp [h], fun h => by simp [h], fun h => by simp [h],
    fun h => by simp [h], by simp, by simp, by simp, by simp⟩

/-- Witness for C9: the all-absent payload leaves every field unchanged on a
concrete game. -/
theorem sync_preserves_absent_fields_witness :
    (SyncData.empty.board = none ∧ SyncData.empty.agent1_trail = none ∧
      SyncData.empty.agent2_trail = none ∧ SyncData.empty.agent1_length = none ∧
      SyncData.empty.agent2_length = none ∧ SyncData.empty.agent1_alive = none ∧
      SyncData.empty.agent2_alive = none ∧ SyncData.empty.agent1_boosts = none ∧
      SyncData.empty.agent2_boosts = none ∧ SyncData.empty.turn_count = none) ∧
    (update_local_game
        (Game.mk (Board.mk 2 2 [[0, 0], [0, 0]])
          (Agent.mk [(0, 0)] Direction.RIGHT 1 true 0)
          (Agent.mk [(1, 1)] Direction.LEFT 1 true 0) 0)
        SyncData.empty).board.grid = [[0, 0], [0, 0]] ∧
    (update_local_game
        (Game.mk (Board.mk 2 2 [[0, 0], [0, 0]])
          (Agent.mk [(0, 0)] Direction.RIGHT 1 true 0)
          (Agent.mk [(1, 1)] Direction.LEFT 1 true 0) 0)
        SyncData.empty).agent1.trail = [(0, 0)] ∧
    (update_local_game
        (Game.mk (Board.mk 2 2 [[0, 0], [0, 0]])
          (Agent.mk [(0, 0)] Direction.RIGHT 1 true 0)
          (Agent.mk [(1, 1)] Direction.LEFT 1 true 0) 0)
        SyncData.empty).turns = 0 := by
  refine ⟨by decide, ?_, ?_, ?_⟩
  · exact (sync_preserves_absent_fields _ SyncData.empty).1 rfl
  · exact (sync_preserves_absent_fields _ SyncData.empty).2.1 rfl
  · exact (sync_preserves_absent_fields _ SyncData.empty).2.2.2.2.2.2.2.2.2.1 rfl

/-- The sort comparator is transitive. -/
lemma scoreGE_trans : ∀ a b c : Nat × Direction × Cell,
    scoreGE a b → scoreGE b c → scoreGE a c := by
  intro a b c hab hbc
  simp only [scoreGE, decide_eq_true_eq] at hab hbc ⊢
  omega

/-- The sort comparator is total. -/
lemma scoreGE_total : ∀ a b : Nat × Direction × Cell,
    scoreGE a b || scoreGE b a := by
  intro a b
  simp only [scoreGE]
  by_cases h : b.1 ≤ a.1 <;> simp [h] <;> omega

/-- The sorted candidate list is in descending score order. -/
lemma pairwise_mergeSort_scoreGE (l : List (Nat × Direction × Cell)) :
    (l.mergeSort scoreGE).Pairwise (fun a b => b.1 ≤ a.1) := by
  have h := List.sorted_mergeSort scoreGE_trans scoreGE_total l
  exact h.imp (fun hab => by simpa [scoreGE] using hab)

/-- In a descending-sorted list, any element satisfying the search predicate
scores at most the first found element. -/
lemma find_le_of_pairwise (p : Nat × Direction × Cell → Bool) :
    ∀ (l : List (Nat × Direction × Cell)),
      l.Pairwise (fun a b => b.1 ≤ a.1) →
      ∀ c, l.find? p = some c → ∀ s ∈ l, p s = true → s.1 ≤ c.1 := by
  intro l
  induction l with
  | nil =>
    intro _ c hc
    simp at hc
  | cons x xs ih =>
    intro hp c hc s hs hps
    rcases List.pairwise_cons.mp hp with ⟨hx_le, hp'⟩
    by_cases hx : p x = true
    · rw [List.find?_cons_of_pos _ hx] at hc
      injection hc with hc
      subst hc
      rcases List.mem_cons.mp hs with rfl | h'
      · exact le_refl _
      · exact hx_le _ h'
    · rw [List.find?_cons_of_neg _ hx] at hc
      rcases List.mem_cons.mp hs with rfl | h'
      · exact absurd hps hx
      · exact ih hp' c hc s h' hps

/-- C4: on a non-empty candidate list, the generic selector returns the
direction of some candidate; when a non-suicidal candidate exists the chosen
one is non-suicidal with a score at least every safe candidate's, and when
all candidates are suicidal the chosen one has the largest score overall. -/
theorem choose_non_suicidal_move_spec (head : Cell) (board : Board)
    (occupied_trails : Finset Cell)
    (candidate_moves : List (Nat × Direction × Cell))
    (hne : candidate_moves ≠ []) :
    ∃ c ∈ candidate_moves,
      choose_non_suicidal_move head board occupied_trails candidate_moves =
        some c.2.1 ∧
      ((∃ s ∈ candidate_moves,
          is_suicidal head s.2.2 board occupied_trails = false) →
        is_suicidal head c.2.2 board occupied_trails = false ∧
        ∀ s ∈ candidate_moves,
          is_suicidal head s.2.2 board occupied_trails = false → s.1 ≤ c.1) ∧
      ((∀ s ∈ candidate_moves,
          is_suicidal head s.2.2 board occupied_trails = true) →
        ∀ s ∈ candidate_moves, s.1 ≤ c.1) := by
  obtain ⟨x, xs, rfl⟩ : ∃ x xs, candidate_moves = x :: xs := by
    cases candidate_moves with
    | nil => exact absurd rfl hne
    | cons x xs => exact ⟨x, xs, rfl⟩
  have hsorted := pairwise_mergeSort_scoreGE (x :: xs)
  rcases hf : (List.mergeSort (x :: xs) scoreGE).find?
      (fun c => ! is_suicidal head c.2.2 board occupied_trails) with _ | c
  · rcases hs : List.mergeSort (x :: xs) scoreGE with _ | ⟨c, tl⟩
    · exfalso
      have hx : x ∈ List.mergeSort (x :: xs) scoreGE :=
        List.mem_mergeSort.mpr (List.mem_cons_self x xs)
      rw [hs] at hx
      simp at hx
    · have hcmem : c ∈ x :: xs :=
        List.mem_mergeSort.mp
          (show c ∈ (x :: xs).mergeSort scoreGE by
            rw [hs]
            exact List.mem_cons_self c tl)
      have hall : ∀ s ∈ x :: xs,
          is_suicidal head s.2.2 board occupied_trails = true := by
        intro s hsmem
        have hmem' : s ∈ List.mergeSort (x :: xs) scoreGE :=
          List.mem_mergeSort.mpr hsmem
        have hns := List.find?_eq_none.mp hf s hmem'
        simpa using hns
      refine ⟨c, hcmem, ?_, ?_, ?_⟩
      · simp only [choose_non_suicidal_move]
        rw [hf, hs]
      · intro hex
        obtain ⟨s, hsmem, hsafe⟩ := hex
        rw [hall s hsmem] at hsafe
        cases hsafe
      · intro _ s hsmem
        have hs' : s ∈ c :: tl := by
          rw [← hs]
          exact List.mem_mergeSort.mpr hsmem
        rcases List.mem_cons.mp hs' with rfl | h'
        · exact le_refl _
        · rw [hs] at hsorted
          exact (List.pairwise_cons.mp hsorted).1 s h'
  · have hpc := List.find?_some hf
    have hcsafe : is_suicidal head c.2.2 board occupied_trails = false := by
      simpa using hpc
    have hcmem : c ∈ x :: xs :=
      List.mem_mergeSort.mp (List.mem_of_find?_eq_some hf)
    refine ⟨c, hcmem, ?_, ?_, ?_⟩
    · simp only [choose_non_suicidal_move]
      rw [hf]
    · intro _
      refine ⟨hcsafe, ?_⟩
      intro s hsmem hssafe
      refine find_le_of_pairwise _ _ hsorted c hf s
        (List.mem_mergeSort.mpr hsmem) ?_
      simp [hssafe]
    · intro hall
      rw [hall c hcmem] at hcsafe
      cases hcsafe

/-- Witness for C4 at a concrete candidate list. -/
theorem choose_non_suicidal_move_spec_witness :
    ([((3 : Nat), Direction.RIGHT, ((1 : Int), (0 : Int))),
        ((5 : Nat), Direction.UP, ((0 : Int), (1 : Int)))] ≠
      ([] : List (Nat × Direction × Cell))) ∧
    ∃ c ∈ [((3 : Nat), Direction.RIGHT, ((1 : Int), (0 : Int))),
        ((5 : Nat), Direction.UP, ((0 : Int), (1 : Int)))],
      choose_non_suicidal_move (0, 0) (Board.mk 2 2 [[0, 0], [0, 0]]) ∅
          [((3 : Nat), Direction.RIGHT, ((1 : Int), (0 : Int))),
            ((5 : Nat), Direction.UP, ((0 : Int), (1 : Int)))] = some c.2.1 ∧
      ((∃ s ∈ [((3 : Nat), Direction.RIGHT, ((1 : Int), (0 : Int))),
            ((5 : Nat), Direction.UP, ((0 : Int), (1 : Int)))],
          is_suicidal (0, 0) s.2.2 (Board.mk 2 2 [[0, 0], [0, 0]]) ∅ = false) →
        is_suicidal (0, 0) c.2.2 (Board.mk 2 2 [[0, 0], [0, 0]]) ∅ = false ∧
        ∀ s ∈ [((3 : Nat), Direction.RIGHT, ((1 : Int), (0 : Int))),
            ((5 : Nat), Direction.UP, ((0 : Int), (1 : Int)))],
          is_suicidal (0, 0) s.2.2 (Board.mk 2 2 [[0, 0], [0, 0]]) ∅ = false →
            s.1 ≤ c.1) ∧
      ((∀ s ∈ [((3 : Nat), Direction.RIGHT, ((1 : Int), (0 : Int))),
            ((5 : Nat), Direction.UP, ((0 : Int), (1 : Int)))],
          is_suicidal (0, 0) s.2.2 (Board.mk 2 2 [[0, 0], [0, 0]]) ∅ = true) →
        ∀ s ∈ [((3 : Nat), Direction.RIGHT, ((1 : Int), (0 : Int))),
            ((5 : Nat), Direction.UP, ((0 : Int), (1 : Int)))], s.1 ≤ c.1) :=
  ⟨by decide,
    choose_non_suicidal_move_spec (0, 0) (Board.mk 2 2 [[0, 0], [0, 0]]) ∅
      [((3 : Nat), Direction.RIGHT, ((1 : Int), (0 : Int))),
        ((5 : Nat), Direction.UP, ((0 : Int), (1 : Int)))] (by decide)⟩

/-- The reverse direction carries the negated delta. -/
lemma reverse_value (d : Direction) :
    d.reverse.value = (-d.value.1, -d.value.2) := by
  cases d <;> rfl

/-- A direction surviving the sample safe-move filter has its target off both
trails and, when an opponent head is given, off the opponent's possible next
positions. -/
lemma sample_safe_moves_target_not_mem {head : Cell} {w h : Int}
    {cur : Direction} {myTrail oppTrail : List Cell} {oppHead? : Option Cell}
    {d : Direction}
    (hd : d ∈ sample_safe_moves head w h cur myTrail oppTrail oppHead?) :
    ((head.1 + d.value.1) % w, (head.2 + d.value.2) % h) ∉ myTrail ∧
    ((head.1 + d.value.1) % w, (head.2 + d.value.2) % h) ∉ oppTrail ∧
    (∀ oh, oppHead? = some oh →
      ((head.1 + d.value.1) % w, (head.2 + d.value.2) % h) ∉ opp_next w h oh) := by
  have hp := (List.mem_filter.mp hd).2
  simp only [] at hp
  by_cases hor : ((head.1 + d.value.1) % w, (head.2 + d.value.2) % h) ∈ myTrail ∨
      ((head.1 + d.value.1) % w, (head.2 + d.value.2) % h) ∈ oppTrail
  · rw [if_pos hor] at hp
    cases hp
  · rw [if_neg hor] at hp
    push_neg at hor
    refine ⟨hor.1, hor.2, ?_⟩
    intro oh hoh
    rw [hoh] at hp
    simpa using hp

/-- Membership in `candidate_dirs` rules out the exact reverse heading. -/
lemma candidate_dirs_ne_reverse {cur d : Direction}
    (hd : d ∈ candidate_dirs cur) : d ≠ cur.reverse := by
  have hdv : d.value ≠ (-cur.value.1, -cur.value.2) := by
    have := List.mem_filter.mp hd
    simpa using this.2
  intro hrev
  apply hdv
  rw [hrev, reverse_value]

/-- C8: neither candidate generator ever offers the exact inverse of the
current heading, and neither ever offers a candidate whose target cell is the
current head (`agent.py` skips it explicitly; `sample_agent.py` rejects it as
a trail cell since the head lies on the agent's own trail). -/
theorem candidate_gen_no_reverse_no_head
    (head : Cell) (board : Board) (cur : Direction) (occupied : Finset Cell)
    (w h : Int) (myTrail oppTrail : List Cell) (oppHead? : Option Cell)
    (hhead : head ∈ myTrail) :
    (∀ e ∈ gen_move_options head board cur occupied,
      e.2.1 ≠ cur.reverse ∧ e.2.2 ≠ head) ∧
    (∀ d ∈ sample_safe_moves head w h cur myTrail oppTrail oppHead?,
      d ≠ cur.reverse ∧
        ((head.1 + d.value.1) % w, (head.2 + d.value.2) % h) ≠ head) := by
  constructor
  · intro e he
    simp only [gen_move_options, List.mem_filterMap] at he
    obtain ⟨d, hd, hfd⟩ := he
    by_cases ht : ((head.1 + d.value.1) % board.width,
        (head.2 + d.value.2) % board.height) = head
    · rw [if_pos ht] at hfd
      cases hfd
    · rw [if_neg ht] at hfd
      injection hfd with hfd
      rw [← hfd]
      exact ⟨candidate_dirs_ne_reverse hd, ht⟩
  · intro d hd
    have hne := sample_safe_moves_target_not_mem hd
    refine ⟨candidate_dirs_ne_reverse (List.mem_filter.mp hd).1, ?_⟩
    intro ht
    apply hne.1
    rw [ht]
    exact hhead

/-- Witness for C8 at a concrete state. -/
theorem candidate_gen_no_reverse_no_head_witness :
    (((0 : Int), (0 : Int)) ∈ [((0 : Int), (0 : Int))]) ∧
    (((9 : Nat), Direction.UP, ((0 : Int), (2 : Int))) ∈
        gen_move_options (0, 0) (Board.mk 3 3 [[0, 0, 0], [0, 0, 0], [0, 0, 0]])
          Direction.RIGHT ∅ ∧
      (Direction.UP ≠ Direction.RIGHT.reverse ∧
        ((0 : Int), (2 : Int)) ≠ ((0 : Int), (0 : Int)))) ∧
    (Direction.UP ∈ sample_safe_moves (0, 0) 3 3 Direction.RIGHT
        [((0 : Int), (0 : Int))] [] none ∧
      (Direction.UP ≠ Direction.RIGHT.reverse ∧
        (((0 : Int) + Direction.UP.value.1) % 3,
          ((0 : Int) + Direction.UP.value.2) % 3) ≠ ((0 : Int), (0 : Int)))) := by
  refine ⟨by decide, ⟨by decide, ?_⟩, ⟨by decide, ?_⟩⟩
  · exact (candidate_gen_no_reverse_no_head (0, 0)
      (Board.mk 3 3 [[0, 0, 0], [0, 0, 0], [0, 0, 0]]) Direction.RIGHT ∅ 3 3
      [((0 : Int), (0 : Int))] [] none (by decide)).1
      ((9 : Nat), Direction.UP, ((0 : Int), (2 : Int))) (by decide)
  · exact (candidate_gen_no_reverse_no_head (0, 0)
      (Board.mk 3 3 [[0, 0, 0], [0, 0, 0], [0, 0, 0]]) Direction.RIGHT ∅ 3 3
      [((0 : Int), (0 : Int))] [] none (by decide)).2 Direction.UP (by decide)

/-- C10: the simple variant's safe-move filter excludes any candidate whose
wrapped target is one of the living opponent's possible next positions, in
addition to excluding targets on either trail. -/
theorem sample_safe_moves_excludes (head : Cell) (w h : Int) (cur : Direction)
    (myTrail oppTrail : List Cell) (oh : Cell) (d : Direction)
    (hbad : ((head.1 + d.value.1) % w, (head.2 + d.value.2) % h) ∈ opp_next w h oh ∨
      ((head.1 + d.value.1) % w, (head.2 + d.value.2) % h) ∈ myTrail ∨
      ((head.1 + d.value.1) % w, (head.2 + d.value.2) % h) ∈ oppTrail) :
    d ∉ sample_safe_moves head w h cur myTrail oppTrail (some oh) := by
  intro hd
  have hne := sample_safe_moves_target_not_mem hd
  rcases hbad with h' | h' | h'
  · exact hne.2.2 oh rfl h'
  · exact hne.1 h'
  · exact hne.2.1 h'

/-- Witness for C10 at a concrete state. -/
theorem sample_safe_moves_excludes_witness :
    ((((0 : Int) + Direction.RIGHT.value.1) % 4,
        ((0 : Int) + Direction.RIGHT.value.2) % 4) ∈
          opp_next 4 4 ((2 : Int), (0 : Int)) ∨
      (((0 : Int) + Direction.RIGHT.value.1) % 4,
        ((0 : Int) + Direction.RIGHT.value.2) % 4) ∈ [((0 : Int), (0 : Int))] ∨
      (((0 : Int) + Direction.RIGHT.value.1) % 4,
        ((0 : Int) + Direction.RIGHT.value.2) % 4) ∈ [((2 : Int), (0 : Int))]) ∧
    Direction.RIGHT ∉ sample_safe_moves (0, 0) 4 4 Direction.RIGHT
      [((0 : Int), (0 : Int))] [((2 : Int), (0 : Int))] (some (2, 0)) :=
  ⟨by decide, sample_safe_moves_excludes (0, 0) 4 4 Direction.RIGHT
    [((0 : Int), (0 : Int))] [((2 : Int), (0 : Int))] (2, 0) Direction.RIGHT
    (by decide)⟩

/-- The panic trigger never moves the phase backwards. -/
lemma phaseRank_le_panic_phase_update (phase : Phase) (head : Cell)
    (oppHead? : Option Cell) :
    phaseRank phase ≤ phaseRank (panic_phase_update phase head oppHead?) := by
  rcases oppHead? with _ | o
  · exact le_refl _
  · simp only [panic_phase_update]
    split
    · next hcond =>
      rw [hcond.1]
      decide
    · exact le_refl _

/-- The infiltration check never moves the phase backwards. -/
lemma phaseRank_le_phase2_of (phase : Phase) (head : Cell)
    (oppHead? : Option Cell) (cy ex : Int) :
    phaseRank phase ≤ phaseRank (phase2_of phase head oppHead? cy ex) := by
  unfold phase2_of
  split
  · cases phase <;> simp [phaseRank]
  · exact phaseRank_le_panic_phase_update phase head oppHead?

/-- The full per-call phase update never moves the phase backwards. -/
lemma phaseRank_le_phase_step (phase : Phase) (head : Cell)
    (oppHead? : Option Cell) (cy ex : Int) :
    phaseRank phase ≤ phaseRank (phase_step phase head oppHead? cy ex) := by
  unfold phase_step
  split
  · cases phase <;> simp [phaseRank]
  · exact phaseRank_le_phase2_of phase head oppHead? cy ex

/-- A move query never moves the stored phase backwards. -/
lemma phaseRank_le_send_move (st : EngineState) (p : Int) :
    phaseRank st.phase ≤ phaseRank (send_move st p).2.1 := by
  simp only [send_move]
  split
  · exact le_refl _
  · split
    · exact le_refl _
    · split
      · exact le_refl _
      · exact phaseRank_le_phase_step _ _ _ _ _

/-- C6: over any request sequence without a match-end reset the phase only
moves forward along `floodfill → panic → post_corridor_fill` (so it never
returns to `floodfill`, and never from `post_corridor_fill` back to `panic`),
and a match-end reset unconditionally restores `floodfill` and a neutral
escape bias. -/
theorem phase_one_directional :
    (∀ (st : EngineState) (es : List Event), hasReset es = false →
      phaseRank st.phase ≤ phaseRank (runEvents st es).phase) ∧
    (∀ (st : EngineState) (d : Option SyncData),
      (stepEvent st (Event.endGame d)).phase = Phase.floodfill ∧
      (stepEvent st (Event.endGame d)).escape_dx = 0) := by
  constructor
  · intro st es
    induction es generalizing st with
    | nil => intro _; exact le_refl _
    | cons e es ih =>
      intro hnr
      have hstep : phaseRank st.phase ≤ phaseRank (stepEvent st e).phase := by
        cases e with
        | sync d => exact le_of_eq rfl
        | moveQuery p => exact phaseRank_le_send_move st p
        | endGame d => simp [hasReset] at hnr
      have hrest : hasReset es = false := by
        cases e with
        | sync d => simpa [hasReset] using hnr
        | moveQuery p => simpa [hasReset] using hnr
        | endGame d => simp [hasReset] at hnr
      exact le_trans hstep (ih (stepEvent st e) hrest)
  · intro st d
    exact ⟨rfl, rfl⟩

/-- Witness for C6 at a concrete state and request sequence. -/
theorem phase_one_directional_witness :
    hasReset [Event.sync SyncData.empty, Event.moveQuery 1] = false ∧
    phaseRank (EngineState.mk
      (Game.mk (Board.mk 2 2 [[0, 0], [0, 0]])
        (Agent.mk [(0, 0)] Direction.RIGHT 1 true 0)
        (Agent.mk [(1, 1)] Direction.LEFT 1 true 0) 0) Phase.panic 0).phase ≤
      phaseRank (runEvents (EngineState.mk
        (Game.mk (Board.mk 2 2 [[0, 0], [0, 0]])
          (Agent.mk [(0, 0)] Direction.RIGHT 1 true 0)
          (Agent.mk [(1, 1)] Direction.LEFT 1 true 0) 0) Phase.panic 0)
        [Event.sync SyncData.empty, Event.moveQuery 1]).phase ∧
    (stepEvent (EngineState.mk
      (Game.mk (Board.mk 2 2 [[0, 0], [0, 0]])
        (Agent.mk [(0, 0)] Direction.RIGHT 1 true 0)
        (Agent.mk [(1, 1)] Direction.LEFT 1 true 0) 0) Phase.panic 0)
      (Event.endGame none)).phase = Phase.floodfill ∧
    (stepEvent (EngineState.mk
      (Game.mk (Board.mk 2 2 [[0, 0], [0, 0]])
        (Agent.mk [(0, 0)] Direction.RIGHT 1 true 0)
        (Agent.mk [(1, 1)] Direction.LEFT 1 true 0) 0) Phase.panic 0)
      (Event.endGame none)).escape_dx = 0 :=
  ⟨by decide,
    phase_one_directional.1 _ [Event.sync SyncData.empty, Event.moveQuery 1]
      (by decide),
    (phase_one_directional.2 _ none).1,
    (phase_one_directional.2 _ none).2⟩

/-- Once the panic trigger has produced `panic`, the stored phase for the
call is `panic` or `post_corridor_fill`. -/
lemma phase_step_of_panic_update {phase : Phase} {hd : Cell} {o? : Option Cell}
    (cy ex : Int) (h : panic_phase_update phase hd o? = Phase.panic) :
    phase_step phase hd o? cy ex = Phase.panic ∨
    phase_step phase hd o? cy ex = Phase.post_corridor_fill := by
  unfold phase_step phase2_of
  rw [h]
  split
  · exact Or.inr rfl
  · split
    · exact Or.inr rfl
    · exact Or.inl rfl

/-- The phase stored back by a non-degenerate `send_move` call (non-empty own
trail, well-defined opponent head, non-empty candidate list) is exactly
`phase_step` of the inputs. -/
lemma send_move_phase_reduce (st : EngineState) (p : Int) (t0 : Cell)
    (rest : List Cell) (oh? : Option Cell)
    (hmy : (if p = 1 then st.game.agent1 else st.game.agent2).trail = t0 :: rest)
    (hoppE : (if (if p = 1 then st.game.agent2 else st.game.agent1).alive = true then
        ((if p = 1 then st.game.agent2 else st.game.agent1).trail.getLast?).map some
      else some none) = some oh?)
    (hmo : gen_move_options ((t0 :: rest).getLast (List.cons_ne_nil t0 rest))
        st.game.board (if p = 1 then st.game.agent1 else st.game.agent2).direction
        (((t0 :: rest).toFinset ∪
            (if p = 1 then st.game.agent2 else st.game.agent1).trail.toFinset) ∪
          sneaky_corridor st.game.board.width
            ((t0.2 + st.game.board.height / 2) % st.game.board.height)) ≠ []) :
    (send_move st p).2.1 =
      phase_step st.phase ((t0 :: rest).getLast (List.cons_ne_nil t0 rest)) oh?
        ((t0.2 + st.game.board.height / 2) % st.game.board.height) t0.1 := by
  obtain ⟨m0, ms, hmoe⟩ := List.exists_cons_of_ne_nil hmo
  simp only [send_move]
  rw [hmy]
  simp only []
  rw [hoppE]
  simp only []
  rw [hmoe]

/-- C5 counterexample: in `OpenPlay` with a living opponent whose head column
is toroidally 1 cell away (modular arithmetic), the decision call does NOT
set the phase to `Panic`: the code uses the plain absolute column difference
(here 9), not a modular one. -/
theorem panic_trigger_toroidal_cex :
    toroidalSepState.phase = Phase.floodfill ∧
    toroidalSepState.game.agent2.alive = true ∧
    min ((((0 : Int) - 9) % 10)) ((((9 : Int) - 0) % 10)) ≤ 1 ∧
    (send_move toroidalSepState 1).2.1 = Phase.floodfill ∧
    (send_move toroidalSepState 1).2.1 ≠ Phase.panic := by
  refine ⟨rfl, rfl, by decide, by decide, by decide⟩

/-- C5 (amended): with the separation taken as the plain absolute difference
of the stored head columns (no toroidal wrap), a decision call served in
`OpenPlay` against a living opponent at separation ≤ 1 sets the phase to
`Panic` during the call; the stored phase is then `Panic`, or
`PostEscapeFill` when corridor infiltration also fires in the same call. -/
theorem panic_trigger_abs_sep (st : EngineState) (p : Int) (t0 oh : Cell)
    (rest : List Cell)
    (hmy : (if p = 1 then st.game.agent1 else st.game.agent2).trail = t0 :: rest)
    (hoppE : (if (if p = 1 then st.game.agent2 else st.game.agent1).alive = true then
        ((if p = 1 then st.game.agent2 else st.game.agent1).trail.getLast?).map some
      else some none) = some (some oh))
    (hmo : gen_move_options ((t0 :: rest).getLast (List.cons_ne_nil t0 rest))
        st.game.board (if p = 1 then st.game.agent1 else st.game.agent2).direction
        (((t0 :: rest).toFinset ∪
            (if p = 1 then st.game.agent2 else st.game.agent1).trail.toFinset) ∪
          sneaky_corridor st.game.board.width
            ((t0.2 + st.game.board.height / 2) % st.game.board.height)) ≠ [])
    (hph : st.phase = Phase.floodfill)
    (hsep : |((t0 :: rest).getLast (List.cons_ne_nil t0 rest)).1 - oh.1| ≤ 1) :
    panic_phase_update st.phase
      ((t0 :: rest).getLast (List.cons_ne_nil t0 rest)) (some oh) = Phase.panic ∧
    ((send_move st p).2.1 = Phase.panic ∨
      (send_move st p).2.1 = Phase.post_corridor_fill) := by
  have hpu : panic_phase_update st.phase
      ((t0 :: rest).getLast (List.cons_ne_nil t0 rest)) (some oh) = Phase.panic := by
    rw [hph]
    simp only [panic_phase_update]
    rw [if_pos ⟨trivial, hsep⟩]
  refine ⟨hpu, ?_⟩
  rw [send_move_phase_reduce st p t0 rest (some oh) hmy hoppE hmo]
  exact phase_step_of_panic_update _ _ hpu

/-- Witness for the amended C5 at a concrete state. -/
theorem panic_trigger_abs_sep_witness :
    (if (1 : Int) = 1
        then (EngineState.mk (Game.mk (Board.mk 3 3 [[0, 0, 0], [0, 0, 0], [0, 0, 0]])
          (Agent.mk [(0, 0)] Direction.RIGHT 1 true 0)
          (Agent.mk [(1, 2)] Direction.LEFT 1 true 0) 0) Phase.floodfill 0).game.agent1
        else (EngineState.mk (Game.mk (Board.mk 3 3 [[0, 0, 0], [0, 0, 0], [0, 0, 0]])
          (Agent.mk [(0, 0)] Direction.RIGHT 1 true 0)
          (Agent.mk [(1, 2)] Direction.LEFT 1 true 0) 0) Phase.floodfill 0).game.agent2).trail =
      [((0 : Int), (0 : Int))] ∧
    panic_phase_update Phase.floodfill
      ([((0 : Int), (0 : Int))].getLast (List.cons_ne_nil (0, 0) []))
      (some (1, 2)) = Phase.panic ∧
    ((send_move (EngineState.mk (Game.mk (Board.mk 3 3 [[0, 0, 0], [0, 0, 0], [0, 0, 0]])
        (Agent.mk [(0, 0)] Direction.RIGHT 1 true 0)
        (Agent.mk [(1, 2)] Direction.LEFT 1 true 0) 0) Phase.floodfill 0) 1).2.1 =
          Phase.panic ∨
      (send_move (EngineState.mk (Game.mk (Board.mk 3 3 [[0, 0, 0], [0, 0, 0], [0, 0, 0]])
        (Agent.mk [(0, 0)] Direction.RIGHT 1 true 0)
        (Agent.mk [(1, 2)] Direction.LEFT 1 true 0) 0) Phase.floodfill 0) 1).2.1 =
          Phase.post_corridor_fill) := by
  refine ⟨by decide, ?_, ?_⟩
  · exact (panic_trigger_abs_sep
      (EngineState.mk (Game.mk (Board.mk 3 3 [[0, 0, 0], [0, 0, 0], [0, 0, 0]])
        (Agent.mk [(0, 0)] Direction.RIGHT 1 true 0)
        (Agent.mk [(1, 2)] Direction.LEFT 1 true 0) 0) Phase.floodfill 0) 1
      (0, 0) (1, 2) [] (by decide) (by decide) (by decide) rfl (by decide)).1
  · exact (panic_trigger_abs_sep
      (EngineState.mk (Game.mk (Board.mk 3 3 [[0, 0, 0], [0, 0, 0], [0, 0, 0]])
        (Agent.mk [(0, 0)] Direction.RIGHT 1 true 0)
        (Agent.mk [(1, 2)] Direction.LEFT 1 true 0) 0) Phase.floodfill 0) 1
      (0, 0) (1, 2) [] (by decide) (by decide) (by decide) rfl (by decide)).2

/-- C7 counterexample: with the opponent's head exactly on the exit column of
the safe row, the corridor-infiltration transition DOES fire (the code's
interval test includes the exit column), contradicting the claim that an
opponent on the exit column does not count. -/
theorem corridor_exit_column_cex :
    exitColumnState.phase = Phase.panic ∧
    (exitColumnState.game.agent2.trail.getLast?).map Prod.fst =
      (exitColumnState.game.agent1.trail.head?).map Prod.fst ∧
    corridor_infiltrated (2, 0) (3, 2) 2 3 = true ∧
    (send_move exitColumnState 1).2.1 = Phase.post_corridor_fill := by
  refine ⟨rfl, by decide, by decide, by decide⟩

/-- C7 (amended): while in `Panic`, the corridor-infiltration condition holds
exactly when the agent is off the safe row, the opponent's head is on it, and
the opponent's column lies in the half-open interval from the agent's column
toward the exit column that EXCLUDES the agent's column and INCLUDES the exit
column. -/
theorem corridor_infiltrated_iff (head o : Cell) (cy ex : Int) :
    corridor_infiltrated head o cy ex = true ↔
      head.2 ≠ cy ∧ o.2 = cy ∧
        ((head.1 < ex ∧ o.1 ∈ Set.Ioc head.1 ex) ∨
         (ex < head.1 ∧ o.1 ∈ Set.Ico ex head.1)) := by
  unfold corridor_infiltrated
  simp only [Bool.and_eq_true, Bool.or_eq_true, decide_eq_true_eq,
    Set.mem_Ioc, Set.mem_Ico, gt_iff_lt]
  tauto

/-- C1: the phased engine (`agent.py`) always answers a move query with a
direction whenever each served agent's trail is non-empty — including states
where every candidate is fatal or the candidate list is empty.  The simple
variant (`sample_agent.py`) violates the claim: when the safe-move list is
empty and boosts remain, evaluating the boost condition reads the unbound
`max_space` and raises (`none`); with no boosts the conjunction
short-circuits and the current heading is returned. -/
theorem engine_always_answers_but_sample_crashes :
    (∀ (st : EngineState) (p : Int),
      (if p = 1 then st.game.agent1 else st.game.agent2).trail ≠ [] →
      ((if p = 1 then st.game.agent2 else st.game.agent1).alive = true →
        (if p = 1 then st.game.agent2 else st.game.agent1).trail ≠ []) →
      (send_move st p).1.isSome = true) ∧
    sample_send_move (boxedGame 1) 1 = none ∧
    sample_send_move (boxedGame 0) 1 = some (Direction.RIGHT, false) := by
  refine ⟨?_, by decide, by decide⟩
  intro st p hmy hopp
  rcases hmytr : (if p = 1 then st.game.agent1 else st.game.agent2).trail
    with _ | ⟨t0, rest⟩
  · exact absurd hmytr hmy
  · simp only [send_move]
    rw [hmytr]
    simp only []
    rcases hoppE : (if (if p = 1 then st.game.agent2 else st.game.agent1).alive = true
        then ((if p = 1 then st.game.agent2 else st.game.agent1).trail.getLast?).map some
        else some none) with _ | oh?
    · exfalso
      by_cases ha : (if p = 1 then st.game.agent2 else st.game.agent1).alive = true
      · rw [if_pos ha] at hoppE
        rw [Option.map_eq_none'] at hoppE
        exact hopp ha (List.getLast?_eq_none_iff.mp hoppE)
      · rw [if_neg ha] at hoppE
        cases hoppE
    · simp only []
      split
      · rfl
      · rfl

/-- Witness for C1's universal part: served on a boxed-in state where every
candidate move is fatal, the phased engine still answers with a direction. -/
theorem engine_always_answers_witness :
    ((if (1 : Int) = 1
        then (EngineState.mk (boxedGame 0) Phase.floodfill 0).game.agent1
        else (EngineState.mk (boxedGame 0) Phase.floodfill 0).game.agent2).trail ≠ []) ∧
    ((if (1 : Int) = 1
        then (EngineState.mk (boxedGame 0) Phase.floodfill 0).game.agent2
        else (EngineState.mk (boxedGame 0) Phase.floodfill 0).game.agent1).alive = true →
      (if (1 : Int) = 1
        then (EngineState.mk (boxedGame 0) Phase.floodfill 0).game.agent2
        else (EngineState.mk (boxedGame 0) Phase.floodfill 0).game.agent1).trail ≠ []) ∧
    (send_move (EngineState.mk (boxedGame 0) Phase.floodfill 0) 1).1.isSome = true :=
  ⟨by decide, by decide,
    engine_always_answers_but_sample_crashes.1
      (EngineState.mk (boxedGame 0) Phase.floodfill 0) 1 (by decide) (by decide)⟩
